import Mathlib

/-!
Shallow embedding of `mcp-sse-bridge` (`src/index.js`).  The repository file
contains two renditions of the bridge: a *simple variant* (the first script in
the file) and an *enhanced variant* (the second script).  Both are embedded
below.  External library calls (`JSON.parse`, the WHATWG `URL` constructor and
`URLSearchParams.get`, the regex match used for strategy 4) are modelled by
executable Lean functions covering the input shapes the bridge exchanges:
the JSON model handles objects, arrays, integer numbers, escape-free strings,
booleans and null; the URL model handles URLs of the shape
`scheme "://" rest` with an alphabetic scheme and extracts query parameters
between the first `?` (before any `#`) without percent-decoding.
-/

namespace Bridge

/-- JavaScript values produced by `JSON.parse`, as used by the bridge. -/
inductive Json where
  | null : Json
  | bool (b : Bool) : Json
  | num (n : Int) : Json
  | str (s : String) : Json
  | arr (xs : List Json) : Json
  | obj (fields : List (String × Json)) : Json

/-- JavaScript truthiness of a value: `null`, `false`, `0` and `""` are falsy,
everything else (objects and arrays included) is truthy. -/
def jsTruthy : Json → Bool
  | Json.null => false
  | Json.bool b => b
  | Json.num n => n != 0
  | Json.str s => s != ""
  | Json.arr _ => true
  | Json.obj _ => true

/-- Truthiness of a possibly-null slot (`none` models JS `null`/`undefined`,
which are falsy). -/
def jsTruthyOpt : Option Json → Bool
  | none => false
  | some v => jsTruthy v

/-- Property lookup on a parsed object (`parsedData.k`): the first binding of
the key, `none` when the property is absent (JS `undefined`). -/
def objGet : List (String × Json) → String → Option Json
  | [], _ => none
  | (k, v) :: rest, key => if k = key then some v else objGet rest key

/-- JavaScript string conversion, as applied by template interpolation and by
the `URL` constructor to a non-string argument.  Arrays stringify as their
comma-joined elements, objects as `[object Object]`. -/
def jsToString : Json → String
  | Json.null => "null"
  | Json.bool true => "true"
  | Json.bool false => "false"
  | Json.num n => toString n
  | Json.str s => s
  | Json.obj _ => "[object Object]"
  | Json.arr xs => String.intercalate "," (xs.attach.map fun x => jsToString x.1)
decreasing_by
  have := List.sizeOf_lt_of_mem x.2
  simp only [Json.arr.sizeOf_spec]
  omega

/-- String interpolation of the session slot (`a ++ sessionId ++ b`):
JS renders `null` as the text `null`. -/
def jsToStringOpt : Option Json → String
  | none => "null"
  | some v => jsToString v

/-- One observable side effect of a handler.  `out s` models
`process.stdout.write(s + "\n")` followed by the flush; `err s` models
`console.error(s)`; `post url body` models dispatching the HTTP POST;
`exit c` models `process.exit(c)`. -/
inductive Eff where
  | out (line : String) : Eff
  | err (msg : String) : Eff
  | post (url : String) (body : String) : Eff
  | exit (code : Nat) : Eff
deriving DecidableEq, Repr

/-- The protocol-output lines among a list of effects. -/
def outLines (effs : List Eff) : List String :=
  effs.filterMap fun e =>
    match e with
    | Eff.out s => some s
    | _ => none

/-- The diagnostic (stderr) lines among a list of effects. -/
def errLines (effs : List Eff) : List String :=
  effs.filterMap fun e =>
    match e with
    | Eff.err s => some s
    | _ => none

/-- The POST dispatches among a list of effects. -/
def postEffs (effs : List Eff) : List (String × String) :=
  effs.filterMap fun e =>
    match e with
    | Eff.post u b => some (u, b)
    | _ => none

/-- Whether the effects contain a process exit. -/
def hasExit (effs : List Eff) : Bool :=
  effs.any fun e =>
    match e with
    | Eff.exit _ => true
    | _ => false

/-! ### List-of-characters utilities (the string scanning the bridge relies on) -/

/-- `startsWithL pat l` holds when `pat` is a prefix of `l`. -/
def startsWithL : List Char → List Char → Bool
  | [], _ => true
  | _ :: _, [] => false
  | p :: ps, c :: cs => p = c && startsWithL ps cs

/-- `containsSub pat l` models `l.includes(pat)` on JS strings. -/
def containsSub (pat : List Char) : List Char → Bool
  | [] => startsWithL pat []
  | c :: rest => startsWithL pat (c :: rest) || containsSub pat rest

/-- The literal searched for by strategy 4's regex `/session_id=([^&]+)/`. -/
def sessionIdPat : List Char := "session_id=".toList

/-- Leftmost match of the regex `/session_id=([^&]+)/`: at each position, if
the literal `session_id=` matches and at least one character other than `&`
follows, the captured run is returned; an occurrence followed immediately by
`&` or end of input does not match and the scan continues one position on,
exactly as the regex engine backtracks. -/
def scanSessionId : List Char → Option String
  | [] => none
  | c :: rest =>
    if startsWithL sessionIdPat (c :: rest) then
      let v := ((c :: rest).drop sessionIdPat.length).takeWhile fun ch => ch != '&'
      if v.isEmpty then scanSessionId rest else some (String.mk v)
    else scanSessionId rest

/-- Characters after the first occurrence of `c`, or `none` when absent. -/
def breakOn (c : Char) : List Char → Option (List Char)
  | [] => none
  | x :: rest => if x = c then some rest else breakOn c rest

/-- Split on `&`, URLSearchParams-style. -/
def splitAmp : List Char → List (List Char)
  | [] => [[]]
  | c :: rest =>
    if c = '&' then [] :: splitAmp rest
    else
      match splitAmp rest with
      | [] => [[c]]
      | g :: gs => (c :: g) :: gs

/-- `URLSearchParams.get("session_id")` over the split query: the first pair
whose key (the run before the first `=`) is `session_id`; a pair with no `=`
has the empty value, and `none` models the JS `null` result. -/
def findSessionParam : List (List Char) → Option String
  | [] => none
  | g :: gs =>
    let key := g.takeWhile fun ch => ch != '='
    if key = "session_id".toList then
      match breakOn '=' g with
      | some v => some (String.mk v)
      | none => some ""
    else findSessionParam gs

/-- Split a character list at the first `"://"` marker: `some (before, after)`
when the marker occurs, scanning left to right. -/
def breakScheme : List Char → Option (List Char × List Char)
  | [] => none
  | c :: rest =>
    if startsWithL [':', '/', '/'] (c :: rest) then some ([], rest.drop 2)
    else (breakScheme rest).map fun p => (c :: p.1, p.2)

/-- The post-scheme part of a URL string (everything after the first `"://"`),
used to state the double-slash property without counting the scheme marker. -/
def dropScheme (l : List Char) : List Char :=
  match breakScheme l with
  | some p => p.2
  | none => []

/-- A parsed URL: the scheme and the characters after `"://"`. -/
structure UrlParts where
  scheme : List Char
  rest : List Char
deriving DecidableEq, Repr

/-- Model of `new URL(s)`: succeeds on strings of the shape
`scheme "://" rest` with a nonempty alphabetic scheme and nonempty rest,
throws (returns `none`) otherwise. -/
def urlParse (s : String) : Option UrlParts :=
  match breakScheme s.toList with
  | some (sch, rest) =>
    if !sch.isEmpty && sch.all Char.isAlpha && !rest.isEmpty then
      some ⟨sch, rest⟩
    else none
  | none => none

/-- Model of `url.searchParams.get("session_id")`: the query is the run after
the first `?` of the post-scheme part, cut at the first `#`; `none` models the
JS `null` result when there is no query or no such key. -/
def urlSessionId (u : UrlParts) : Option String :=
  match breakOn '?' (u.rest.takeWhile fun ch => ch != '#') with
  | some q => findSessionParam (splitAmp q)
  | none => none

/-! ### Model of `JSON.parse` -/

/-- JSON whitespace skip. -/
def skipWs (l : List Char) : List Char :=
  l.dropWhile fun c => c = ' ' || c = '\t' || c = '\n' || c = '\r'

/-- Body of a JSON string literal after the opening quote: the run up to the
closing quote.  Escape sequences are outside the modelled subset and make the
parse fail rather than misparse. -/
def parseStringChars : List Char → Option (List Char × List Char)
  | [] => none
  | c :: rest =>
    if c = '"' then some ([], rest)
    else if c = '\\' then none
    else (parseStringChars rest).map fun p => (c :: p.1, p.2)

/-- A nonempty digit run and its value. -/
def parseNat (l : List Char) : Option (Nat × List Char) :=
  let ds := l.takeWhile Char.isDigit
  if ds.isEmpty then none
  else some (ds.foldl (fun a c => a * 10 + (c.toNat - 48)) 0, l.drop ds.length)

/-- A number literal must not continue with a fraction or exponent
(non-integer numbers are outside the modelled subset). -/
def numBreak : List Char → Bool
  | [] => true
  | c :: _ => !(c = '.' || c = 'e' || c = 'E')

mutual

/-- Fuel-bounded JSON value parser (the fuel strictly exceeds the recursion
depth any input of the given length can reach). -/
def parseVal : Nat → List Char → Option (Json × List Char)
  | 0, _ => none
  | fuel + 1, l =>
    match skipWs l with
    | [] => none
    | c :: rest =>
      if c = '"' then
        match parseStringChars rest with
        | some (cs, r) => some (Json.str (String.mk cs), r)
        | none => none
      else if c = '{' then
        match skipWs rest with
        | '}' :: r => some (Json.obj [], r)
        | r2 =>
          match parseMembers fuel r2 with
          | some (fs, r) => some (Json.obj fs, r)
          | none => none
      else if c = '[' then
        match skipWs rest with
        | ']' :: r => some (Json.arr [], r)
        | r2 =>
          match parseElems fuel r2 with
          | some (xs, r) => some (Json.arr xs, r)
          | none => none
      else if c = 't' then
        if startsWithL "rue".toList rest then some (Json.bool true, rest.drop 3) else none
      else if c = 'f' then
        if startsWithL "alse".toList rest then some (Json.bool false, rest.drop 4) else none
      else if c = 'n' then
        if startsWithL "ull".toList rest then some (Json.null, rest.drop 3) else none
      else if c = '-' then
        match parseNat rest with
        | some (n, r) => if numBreak r then some (Json.num (-(n : Int)), r) else none
        | none => none
      else if c.isDigit then
        match parseNat (c :: rest) with
        | some (n, r) => if numBreak r then some (Json.num (n : Int), r) else none
        | none => none
      else none

/-- Members of a JSON object after the opening brace (nonempty case). -/
def parseMembers : Nat → List Char → Option (List (String × Json) × List Char)
  | 0, _ => none
  | fuel + 1, l =>
    match l with
    | '"' :: rest =>
      match parseStringChars rest with
      | some (key, r1) =>
        match skipWs r1 with
        | ':' :: r2 =>
          match parseVal fuel r2 with
          | some (v, r3) =>
            match skipWs r3 with
            | ',' :: r4 =>
              match parseMembers fuel (skipWs r4) with
              | some (fs, r5) => some ((String.mk key, v) :: fs, r5)
              | none => none
            | '}' :: r4 => some ([(String.mk key, v)], r4)
            | _ => none
          | none => none
        | _ => none
      | none => none
    | _ => none

/-- Elements of a JSON array after the opening bracket (nonempty case). -/
def parseElems : Nat → List Char → Option (List Json × List Char)
  | 0, _ => none
  | fuel + 1, l =>
    match parseVal fuel l with
    | some (v, r1) =>
      match skipWs r1 with
      | ',' :: r2 =>
        match parseElems fuel r2 with
        | some (xs, r3) => some (v :: xs, r3)
        | none => none
      | ']' :: r2 => some ([v], r2)
      | _ => none
    | none => none

end

/-- Model of `JSON.parse(s)`: `none` when the parse throws.  Covers objects,
arrays, escape-free strings, integer numbers, booleans and null. -/
def jsonParse (s : String) : Option Json :=
  match parseVal (2 * s.length + 4) s.toList with
  | some (v, rest) => if (skipWs rest).isEmpty then some v else none
  | none => none

/-! ### URL derivation and CLI pre-check (both variants) -/

/-- `const sseUrl = serverUrl + "/sse"`. -/
def sseUrl (base : String) : String := base ++ "/sse"

/-- `const postUrl = serverUrl + "/messages/"`. -/
def postUrl (base : String) : String := base ++ "/messages/"

/-- The CLI pre-check `new URL(serverUrl)` succeeding. -/
def isValidUrl (s : String) : Bool := (urlParse s).isSome

/-- Whether a character list starts with `/`. -/
def headIsSlash : List Char → Bool
  | [] => false
  | c :: _ => c = '/'

/-- Whether a character list contains two adjacent slashes. -/
def hasDoubleSlash : List Char → Bool
  | [] => false
  | c :: rest => (c = '/' && headIsSlash rest) || hasDoubleSlash rest

/-- "No double slashes" for a URL string: no `//` after the scheme marker
(the `//` of `scheme://` itself is the separator, not a double slash). -/
def noDoubleSlash (s : String) : Bool := !hasDoubleSlash (dropScheme s.toList)

/-- Whether a character list ends with `/`. -/
def lastIsSlash : List Char → Bool
  | [] => false
  | c :: rest => if rest.isEmpty then c = '/' else lastIsSlash rest

/-- Whether a URL string ends with a slash. -/
def endsWithSlash (s : String) : Bool := lastIsSlash s.toList

/-- `data.toString().trim()`: JS trim (modelled on ASCII whitespace). -/
def jsTrim (s : String) : String := s.trim

/-- `response.ok`: status in the 200-299 range. -/
def respOk (status : Nat) : Bool := 200 ≤ status && status ≤ 299

/-- `s.substring(0, 100)` with the `...` suffix for longer strings, as used by
the debug logs. -/
def preview (s : String) : String :=
  if s.length > 100 then s.take 100 ++ "..." else s

/-! ### Simple variant (the first script in `src/index.js`) -/

/-- Truthiness of the simple variant's session slot (a string or JS null). -/
def strTruthy : Option String → Bool
  | none => false
  | some s => s != ""

/-- Simple variant, `endpoint` listener: parse the payload as a URL and take
its `session_id` query parameter (assigned even when null); a URL parse error
is logged and the process exits with code 1. -/
def endpointSimple (sessionId : Option String) (payload : String) :
    Option String × List Eff :=
  match urlParse payload with
  | some u => (urlSessionId u, [])
  | none =>
    (sessionId, [Eff.err "Failed to extract session ID: Invalid URL", Eff.exit 1])

/-- Simple variant, stdin listener: with no (truthy) session identifier the
line is dropped silently, with no diagnostic and no connectivity check;
otherwise the trimmed line is POSTed. -/
def stdinSimple (base : String) (sessionId : Option String) (line : String) :
    List Eff :=
  if !strTruthy sessionId then []
  else
    [Eff.post (postUrl base ++ "?session_id=" ++ sessionId.getD "") (jsTrim line)]

/-- Simple variant, POST response handling: a non-ok status is logged with a
generic message; the response body is never read or forwarded. -/
def responseSimple (status : Nat) (statusText : String) : List Eff :=
  if !respOk status then
    [Eff.err ("HTTP error: " ++ toString status ++ " " ++ statusText)]
  else []

/-- Simple variant `es.onmessage`: one verbatim line per default event. -/
def onMessageSimple (payload : String) : List Eff := [Eff.out payload]

/-! ### Enhanced variant: the `endpoint` listener (Handshake Resolver) -/

/-- The two diagnostics of the all-strategies-failed fall-through. -/
def failLogs : List Eff :=
  [Eff.err "Failed to extract session ID using all strategies",
   Eff.err "Will continue running but bridge may not function correctly"]

/-- Strategy 4 of the enhanced `endpoint` listener: guarded by
`event.data.includes("session_id")`, then the regex
`/session_id=([^&]+)/`; on failure the fall-through diagnostics run and the
session slot keeps its current value. -/
def strat4Scan (raw : String) (cur : Option Json) : Option Json × List Eff :=
  if containsSub "session_id".toList raw.toList then
    match scanSessionId raw.toList with
    | some v =>
      (some (Json.str v),
       [Eff.err ("Extracted session ID from URL string pattern: " ++ v)])
    | none => (cur, failLogs)
  else (cur, failLogs)

/-- Strategy 3 of the enhanced `endpoint` listener: `new URL(event.data)` and
its `session_id` query parameter.  The source assigns
`sessionId = url.searchParams.get("session_id")` before the truthiness check,
so a payload that parses as a URL without a truthy `session_id` parameter
overwrites the current identifier before falling through to strategy 4. -/
def strat3Url (raw : String) (cur : Option Json) : Option Json × List Eff :=
  match urlParse raw with
  | some u =>
    let s' : Option Json := (urlSessionId u).map Json.str
    if jsTruthyOpt s' then
      (s', [Eff.err ("Extracted session ID from direct URL: " ++ jsToStringOpt s')])
    else strat4Scan raw s'
  | none =>
    let r := strat4Scan raw cur
    (r.1, Eff.err "Failed direct URL parsing: Invalid URL" :: r.2)

/-- The value of `parsedData.url || parsedData.endpoint || parsedData.uri`:
the first truthy of the three properties, `none` when all are falsy. -/
def jsOrFields (fields : List (String × Json)) : Option Json :=
  let u := objGet fields "url"
  let e := objGet fields "endpoint"
  let i := objGet fields "uri"
  if jsTruthyOpt u then u
  else if jsTruthyOpt e then e
  else if jsTruthyOpt i then i
  else none

/-- Strategy 2 of the enhanced `endpoint` listener: a truthy
`url`/`endpoint`/`uri` property is stringified and URL-parsed; the same
pre-check assignment to the session slot occurs, and on any failure control
falls through to strategy 3 on the raw payload. -/
def strat2Obj (fields : List (String × Json)) (raw : String) (cur : Option Json) :
    Option Json × List Eff :=
  match jsOrFields fields with
  | some v =>
    let urlString := jsToString v
    let logs := [Eff.err ("Found URL in object: " ++ urlString)]
    match urlParse urlString with
    | some u =>
      let s' : Option Json := (urlSessionId u).map Json.str
      if jsTruthyOpt s' then
        (s', logs ++ [Eff.err ("Extracted session ID from URL params: " ++ jsToStringOpt s')])
      else
        let r := strat3Url raw s'
        (r.1, logs ++ r.2)
    | none =>
      let r := strat3Url raw cur
      (r.1, logs ++ Eff.err "Failed to parse URL from object: Invalid URL" :: r.2)
  | none => strat3Url raw cur

/-- The object branch of the enhanced `endpoint` listener: strategy 1 (a
truthy `session_id` property is used directly) with fall-through to
strategy 2. -/
def endpointObjBranch (fields : List (String × Json)) (raw : String)
    (cur : Option Json) : Option Json × List Eff :=
  match objGet fields "session_id" with
  | some v =>
    if jsTruthy v then
      (some v, [Eff.err ("Found session ID directly in object: " ++ jsToString v)])
    else strat2Obj fields raw cur
  | none => strat2Obj fields raw cur

/-- Enhanced variant, `endpoint` listener: debug logs, then JSON parse of the
payload; a parsed object (or array, whose `typeof` is also "object") enters
the object branch, anything else goes straight to strategy 3 on the raw
payload.  Returns the new session slot and the emitted effects. -/
def endpointEnhanced (cur : Option Json) (payload : String) :
    Option Json × List Eff :=
  let dbg := [Eff.err "Endpoint event received. Data type: string",
              Eff.err ("Data content: " ++ payload)]
  match jsonParse payload with
  | some j =>
    let dbg2 := dbg ++ [Eff.err "Successfully parsed data as JSON"]
    match j with
    | Json.obj fields =>
      let r := endpointObjBranch fields payload cur
      (r.1, dbg2 ++ r.2)
    | Json.arr _ =>
      let r := endpointObjBranch [] payload cur
      (r.1, dbg2 ++ r.2)
    | _ =>
      let r := strat3Url payload cur
      (r.1, dbg2 ++ r.2)
  | none =>
    let dbg2 := dbg ++ [Eff.err "Data is not JSON, using as raw string"]
    let r := strat3Url payload cur
    (r.1, dbg2 ++ r.2)

/-! ### Enhanced variant: Outbound Forwarder -/

/-- Enhanced variant, stdin listener preconditions and dispatch: connectivity
is checked first (drop with the "no connection" diagnostic), the session
identifier second (drop with the "awaiting session" diagnostic); only then is
the trimmed line POSTed to `postUrl + "?session_id=" + sessionId`. -/
def stdinEnhanced (base : String) (isConnected : Bool) (sessionId : Option Json)
    (line : String) : List Eff :=
  if !isConnected then
    [Eff.err "Cannot send message: No connection to server"]
  else if !jsTruthyOpt sessionId then
    [Eff.err "Cannot send message: Waiting for session ID (still initializing)"]
  else
    [Eff.err ("Sending message to " ++ postUrl base ++ "?session_id=" ++ jsToStringOpt sessionId),
     Eff.post (postUrl base ++ "?session_id=" ++ jsToStringOpt sessionId) (jsTrim line)]

/-- `JSON.stringify` escaping of a string value (quote and backslash; control
characters do not occur in the exchanged payloads). -/
def jsonEscape (s : String) : String :=
  String.mk (s.toList.foldr
    (fun c acc =>
      if c = '"' then '\\' :: '"' :: acc
      else if c = '\\' then '\\' :: '\\' :: acc
      else c :: acc) [])

/-- `JSON.stringify({error: etype, message: msg})`. -/
def errObjJson (etype msg : String) : String :=
  "\x7b\"error\":\"" ++ jsonEscape etype ++ "\",\"message\":\"" ++ jsonEscape msg ++ "\"\x7d"

/-- Error-message classification of a non-ok status (enhanced variant):
404 is reported as a missing `/messages/` endpoint, 401/403 as an
authentication/session problem, anything else generically with the code. -/
def classifyHttp (status : Nat) (statusText : String) : String :=
  if status = 404 then
    "Endpoint not found. Make sure server has a /messages/ endpoint"
  else if status = 401 || status = 403 then
    "Authentication error. Session ID might be invalid"
  else "HTTP error: " ++ toString status ++ " " ++ statusText

/-- `JSON.stringify({error: "http_error", status, message})`. -/
def httpErrorJson (status : Nat) (statusText : String) : String :=
  "\x7b\"error\":\"http_error\",\"status\":" ++ toString status ++
    ",\"message\":\"" ++ jsonEscape (classifyHttp status statusText) ++ "\"\x7d"

/-- The result of `await response.text()`: the body text, or the message of a
thrown read error. -/
inductive BodyRead where
  | ok (b : String) : BodyRead
  | readErr (m : String) : BodyRead
deriving DecidableEq, Repr

/-- The settled state of the awaited `fetch`: a resolved response together
with the result of reading its body text, or a rejection (`AbortError` after
the timer aborted it, `ECONNREFUSED`, or any other error). -/
inductive FetchOutcome where
  | resolved (status : Nat) (statusText : String) (body : BodyRead) : FetchOutcome
  | abortErr (msg : String) : FetchOutcome
  | connRefused (msg : String) : FetchOutcome
  | otherErr (msg : String) : FetchOutcome
deriving DecidableEq, Repr

/-- Enhanced variant, handling of a resolved response: a non-ok status is
logged, classified, and mirrored as a structured `http_error` object on
stdout; an ok status has its body text forwarded to stdout as one line (a
body read error is mirrored as a `response_error` object instead). -/
def responseEnhanced (status : Nat) (statusText : String)
    (body : BodyRead) : List Eff :=
  if !respOk status then
    [Eff.err ("HTTP error: " ++ toString status ++ " " ++ statusText),
     Eff.err (classifyHttp status statusText),
     Eff.out (httpErrorJson status statusText)]
  else
    Eff.err "Message sent successfully" ::
      (match body with
       | BodyRead.ok b => [Eff.err ("Got response: " ++ preview b), Eff.out b]
       | BodyRead.readErr m =>
         [Eff.err ("Error reading response: " ++ m),
          Eff.out (errObjJson "response_error" m)])

/-- Enhanced variant: the response branch or the catch branch of the stdin
listener, by the fetch outcome.  An `AbortError` is reported as a timeout
object, `ECONNREFUSED` as a connection_refused object, anything else as a
request_error object; the process is never terminated. -/
def handleFetchOutcome : FetchOutcome → List Eff
  | FetchOutcome.resolved s t b => responseEnhanced s t b
  | FetchOutcome.abortErr m =>
    [Eff.err ("Error sending message: " ++ m),
     Eff.err "Request timed out after 10 seconds",
     Eff.out (errObjJson "timeout" "Request timed out after 10 seconds")]
  | FetchOutcome.connRefused m =>
    [Eff.err ("Error sending message: " ++ m),
     Eff.err "Connection refused. Make sure the server is running and accessible",
     Eff.out (errObjJson "connection_refused" "Connection refused. Make sure the server is running and accessible")]
  | FetchOutcome.otherErr m =>
    [Eff.err ("Error sending message: " ++ m),
     Eff.err m,
     Eff.out (errObjJson "request_error" m)]

/-- The activity of one dispatched POST: when the 10-second timer fires it
aborts the controller, logs, and writes a timeout error object to stdout; the
awaited fetch then settles and `handleFetchOutcome` runs (an aborted fetch
rejects with `AbortError`). -/
def postAttempt (timedOut : Bool) (o : FetchOutcome) : List Eff :=
  (if timedOut then
    [Eff.err "Request timed out after 10 seconds",
     Eff.out (errObjJson "timeout" "Request timed out after 10 seconds")]
   else []) ++ handleFetchOutcome o

/-! ### Enhanced variant: Inbound Forwarder -/

/-- The fixed list of extra event names given wrapping listeners. -/
def namedEvents : List String := ["ready", "update", "notification", "error", "ping"]

/-- `JSON.stringify({event: eventName, data: event.data})`. -/
def wrapEvent (name payload : String) : String :=
  "\x7b\"event\":\"" ++ jsonEscape name ++ "\",\"data\":\"" ++ jsonEscape payload ++ "\"\x7d"

/-- Enhanced variant: the effects of dispatching one server-sent event by
name.  A default `message` event fires both registered handlers (the
`onmessage` property and the second `addEventListener("message")`), each
writing the payload verbatim; the five names of `namedEvents` each have one
wrapping listener; `endpoint` is handled by `endpointEnhanced` (which writes
nothing to stdout); any other event name has no listener at all. -/
def dispatchEnhanced (name payload : String) : List Eff :=
  if name = "message" then
    [Eff.err ("Received message: " ++ preview payload), Eff.out payload,
     Eff.err ("Named message event received: " ++ payload.take 100), Eff.out payload]
  else if name ∈ namedEvents then
    [Eff.err (name ++ " event received"), Eff.out (wrapEvent name payload)]
  else []

/-! ### Enhanced variant: Liveness Monitor -/

/-- The mutable state shared by the enhanced variant's handlers. -/
structure BridgeState where
  isConnected : Bool
  sessionId : Option Json
  lastMessageTime : Nat
  heartbeatCount : Nat

/-- The key line of the elevated "server appears unresponsive" warning block
(the block's remaining banner lines are elided). -/
def warnLine : String := "WARNING: Server appears unresponsive after multiple heartbeats"

/-- The synthetic heartbeat payload with its unique id. -/
def heartbeatMessage (n : Nat) : String :=
  "\x7b\"jsonrpc\":\"2.0\",\"method\":\"tools/call\",\"params\":\x7b\"name\":\"search_memories\",\"arguments\":\x7b\"query\":\"ping\",\"limit\":1\x7d\x7d,\"id\":\"heartbeat-" ++ toString n ++ "\"\x7d"

/-- One firing of the 5-second status timer: waiting notices while
disconnected or session-less; otherwise, if more than 30 seconds have passed
since the last inbound activity, the heartbeat counter is bumped, the
synthetic payload is pushed through the same stdin path, the idle clock is
reset, and from the fifth consecutive heartbeat on the elevated warning is
logged on every such tick.  No branch terminates the process or the timer. -/
def monitorTick (base : String) (now : Nat) (st : BridgeState) :
    BridgeState × List Eff :=
  if !st.isConnected then
    (st, [Eff.err ("Still trying to connect to " ++ sseUrl base ++ "...")])
  else if !jsTruthyOpt st.sessionId then
    (st, [Eff.err "Connected but waiting for session ID..."])
  else
    let idleTime := now - st.lastMessageTime
    if idleTime > 30000 then
      let n := st.heartbeatCount + 1
      let effs :=
        Eff.err ("Sending heartbeat #" ++ toString n ++ " after " ++
            toString ((idleTime + 500) / 1000) ++ "s of silence...") ::
          stdinEnhanced base st.isConnected st.sessionId (heartbeatMessage n) ++
          (if 5 ≤ n then [Eff.err warnLine] else [])
      ({ st with heartbeatCount := n, lastMessageTime := now }, effs)
    else (st, [])

/-- `updateLastMessageTime`: any received server event resets the idle clock
and the consecutive-heartbeat counter. -/
def updateLastMessageTime (now : Nat) (st : BridgeState) : BridgeState :=
  { st with lastMessageTime := now, heartbeatCount := 0 }

/-- A sequence of timer firings, accumulating the emitted effects. -/
def runTicks (base : String) (st : BridgeState) (times : List Nat) :
    BridgeState × List Eff :=
  times.foldl
    (fun acc t =>
      let r := monitorTick base t acc.1
      (r.1, acc.2 ++ r.2))
    (st, [])

/-- How often the elevated warning appears among some effects. -/
def warningCount (effs : List Eff) : Nat :=
  (effs.filter fun e => e = Eff.err warnLine).length

/-! ### Specification-side resolver (spec section 4.2)

The ordered-fallback chain written from the spec's words, one pure function
per strategy, to be compared with the source-translated `endpointEnhanced`. -/

/-- Spec strategy 1, over the already-parsed object fields: a non-empty
`session_id` field used directly. -/
def strat1Fields (fields : List (String × Json)) : Option Json :=
  match objGet fields "session_id" with
  | some v => if jsTruthy v then some v else none
  | none => none

/-- Spec strategy 1: a structured payload that is an object with a non-empty
`session_id` field. -/
def strat1 (p : String) : Option Json :=
  match jsonParse p with
  | some (Json.obj fields) => strat1Fields fields
  | _ => none

/-- Spec strategy 2, over the already-parsed object fields. -/
def strat2Fields (fields : List (String × Json)) : Option Json :=
  match jsOrFields fields with
  | some v =>
    match urlParse (jsToString v) with
    | some u =>
      match urlSessionId u with
      | some q => if q != "" then some (Json.str q) else none
      | none => none
    | none => none
  | none => none

/-- Spec strategy 2: a structured object with a `url`/`endpoint`/`uri` field
whose URL's `session_id` query parameter is non-empty. -/
def strat2 (p : String) : Option Json :=
  match jsonParse p with
  | some (Json.obj fields) => strat2Fields fields
  | _ => none

/-- Spec strategy 3: the raw payload parsed as a URL with a non-empty
`session_id` query parameter. -/
def strat3 (p : String) : Option Json :=
  match urlParse p with
  | some u =>
    match urlSessionId u with
    | some q => if q != "" then some (Json.str q) else none
    | none => none
  | none => none

/-- Spec strategy 4: the textual scan for `session_id=<value>` terminated by
`&` or end of string. -/
def strat4 (p : String) : Option Json := (scanSessionId p.toList).map Json.str

/-- The spec's resolver: the four strategies tried in the stated order, the
first one yielding a non-empty value winning. -/
def resolveSpec (p : String) : Option Json :=
  match strat1 p with
  | some v => some v
  | none =>
    match strat2 p with
    | some v => some v
    | none =>
      match strat3 p with
      | some v => some v
      | none => strat4 p

/-- The leftover pre-check assignment of strategies 2/3 when everything after
strategy 1 fails: what the session slot holds after a failed resolution. -/
def stray3 (raw : String) (cur : Option Json) : Option Json :=
  match urlParse raw with
  | some u => (urlSessionId u).map Json.str
  | none => cur

/-- The leftover assignment of strategy 2's pre-check on failure. -/
def stray2 (fields : List (String × Json)) (cur : Option Json) : Option Json :=
  match jsOrFields fields with
  | some v =>
    match urlParse (jsToString v) with
    | some u => (urlSessionId u).map Json.str
    | none => cur
  | none => cur

/-- The session slot left by a fully failed resolution. -/
def strayAll (p : String) (cur : Option Json) : Option Json :=
  match jsonParse p with
  | some (Json.obj fields) => stray3 p (stray2 fields cur)
  | some (Json.arr _) => stray3 p (stray2 [] cur)
  | _ => stray3 p cur

/-!
## Theorems

Each claim `Cn` of the specification review is settled by one theorem below
(with a witness when it carries hypotheses, and a counterexample when the
claim as stated fails on the code).
-/

/-! Helper lemmas on prefixes, the scheme marker, and slashes. -/

theorem startsWithL_true_append (pat : List Char) :
    ∀ (l t : List Char), startsWithL pat l = true → startsWithL pat (l ++ t) = true := by
  induction pat with
  | nil => intro l t _; rfl
  | cons p ps ih =>
    intro l t h
    cases l with
    | nil => simp [startsWithL] at h
    | cons c cs =>
      simp only [startsWithL, List.cons_append, Bool.and_eq_true] at h ⊢
      exact ⟨h.1, ih cs t h.2⟩

theorem startsWithL_length_le (pat : List Char) :
    ∀ l : List Char, startsWithL pat l = true → pat.length ≤ l.length := by
  induction pat with
  | nil => intro l _; simp
  | cons p ps ih =>
    intro l h
    cases l with
    | nil => simp [startsWithL] at h
    | cons c cs =>
      simp only [startsWithL, Bool.and_eq_true] at h
      simpa using ih cs h.2

theorem startsWithL_append_of_le (pat : List Char) :
    ∀ (l t : List Char), pat.length ≤ l.length →
      startsWithL pat (l ++ t) = startsWithL pat l := by
  induction pat with
  | nil => intro l t _; rfl
  | cons p ps ih =>
    intro l t h
    cases l with
    | nil => simp at h
    | cons c cs =>
      show (decide (p = c) && startsWithL ps (cs ++ t)) = (decide (p = c) && startsWithL ps cs)
      rw [ih cs t (by simpa using h)]

theorem breakScheme_some_length :
    ∀ (l : List Char) (a b : List Char), breakScheme l = some (a, b) → 3 ≤ l.length := by
  intro l
  induction l with
  | nil => intro a b h; simp [breakScheme] at h
  | cons c rest ih =>
    intro a b h
    simp only [breakScheme] at h
    by_cases hs : startsWithL [':', '/', '/'] (c :: rest) = true
    · simpa using startsWithL_length_le _ _ hs
    · rw [if_neg hs] at h
      cases hb : breakScheme rest with
      | none => rw [hb] at h; simp at h
      | some p =>
        have := ih p.1 p.2 (by rw [hb])
        simp only [List.length_cons]
        omega

theorem breakScheme_append :
    ∀ (l : List Char) (t a b : List Char), breakScheme l = some (a, b) →
      breakScheme (l ++ t) = some (a, b ++ t) := by
  intro l
  induction l with
  | nil => intro t a b h; simp [breakScheme] at h
  | cons c rest ih =>
    intro t a b h
    simp only [breakScheme] at h
    by_cases hs : startsWithL [':', '/', '/'] (c :: rest) = true
    · rw [if_pos hs] at h
      simp only [Option.some.injEq, Prod.mk.injEq] at h
      obtain ⟨rfl, rfl⟩ := h
      have hlen : 2 ≤ rest.length := by
        have := startsWithL_length_le _ _ hs
        simp only [List.length_cons, List.length_nil] at this
        omega
      have hsw : startsWithL [':', '/', '/'] (c :: (rest ++ t)) = true :=
        startsWithL_true_append [':', '/', '/'] (c :: rest) t hs
      show (if startsWithL [':', '/', '/'] (c :: (rest ++ t)) = true
            then some (([] : List Char), (rest ++ t).drop 2)
            else (breakScheme (rest ++ t)).map fun p => (c :: p.1, p.2)) =
          some ([], rest.drop 2 ++ t)
      rw [if_pos hsw, List.drop_append_eq_append_drop, Nat.sub_eq_zero_of_le hlen,
        List.drop_zero]
    · rw [if_neg hs] at h
      cases hb : breakScheme rest with
      | none => rw [hb] at h; simp at h
      | some p =>
        cases p with
        | mk a' b' =>
          rw [hb] at h
          simp only [Option.map_some', Option.some.injEq, Prod.mk.injEq] at h
          obtain ⟨rfl, rfl⟩ := h
          have hlen : 3 ≤ rest.length := breakScheme_some_length rest a' b' hb
          have hsw : startsWithL [':', '/', '/'] (c :: (rest ++ t)) =
              startsWithL [':', '/', '/'] (c :: rest) :=
            startsWithL_append_of_le [':', '/', '/'] (c :: rest) t
              (by simp only [List.length_cons, List.length_nil]; omega)
          show (if startsWithL [':', '/', '/'] (c :: (rest ++ t)) = true
                then some (([] : List Char), (rest ++ t).drop 2)
                else (breakScheme (rest ++ t)).map fun p => (c :: p.1, p.2)) =
              some (c :: a', b' ++ t)
          rw [hsw, if_neg hs, ih t a' b' hb]
          rfl

theorem breakScheme_decomp :
    ∀ (l : List Char) (a b : List Char), breakScheme l = some (a, b) →
      l = a ++ ':' :: '/' :: '/' :: b := by
  intro l
  induction l with
  | nil => intro a b h; simp [breakScheme] at h
  | cons c rest ih =>
    intro a b h
    simp only [breakScheme] at h
    by_cases hs : startsWithL [':', '/', '/'] (c :: rest) = true
    · rw [if_pos hs] at h
      simp only [Option.some.injEq, Prod.mk.injEq] at h
      obtain ⟨rfl, rfl⟩ := h
      cases rest with
      | nil => simp [startsWithL] at hs
      | cons d ds =>
        cases ds with
        | nil => simp [startsWithL] at hs
        | cons e es =>
          simp only [startsWithL, Bool.and_eq_true, decide_eq_true_eq] at hs
          obtain ⟨rfl, rfl, rfl, -⟩ := hs
          simp
    · rw [if_neg hs] at h
      cases hb : breakScheme rest with
      | none => rw [hb] at h; simp at h
      | some p =>
        cases p with
        | mk a' b' =>
          rw [hb] at h
          simp only [Option.map_some', Option.some.injEq, Prod.mk.injEq] at h
          obtain ⟨rfl, rfl⟩ := h
          simp [ih a' b' hb]

theorem lastIsSlash_append :
    ∀ (u v : List Char), v ≠ [] → lastIsSlash (u ++ v) = lastIsSlash v := by
  intro u
  induction u with
  | nil => intro v _; rfl
  | cons c rest ih =>
    intro v hv
    have hne : (rest ++ v).isEmpty = false := by
      cases rest with
      | nil =>
        cases v with
        | nil => exact absurd rfl hv
        | cons x xs => rfl
      | cons y ys => rfl
    show (if (rest ++ v).isEmpty = true then decide (c = '/') else lastIsSlash (rest ++ v)) =
        lastIsSlash v
    rw [hne, if_neg (by simp)]
    exact ih v hv

theorem hasDoubleSlash_append_false :
    ∀ (l t : List Char), hasDoubleSlash l = false → hasDoubleSlash t = false →
      (lastIsSlash l = false ∨ headIsSlash t = false) →
      hasDoubleSlash (l ++ t) = false := by
  intro l
  induction l with
  | nil => intro t _ ht _; exact ht
  | cons c rest ih =>
    intro t hl ht hx
    have hl' : (decide (c = '/') && headIsSlash rest || hasDoubleSlash rest) = false := hl
    rw [Bool.or_eq_false_iff] at hl'
    obtain ⟨hl1, hl2⟩ := hl'
    show (decide (c = '/') && headIsSlash (rest ++ t) || hasDoubleSlash (rest ++ t)) = false
    rw [Bool.or_eq_false_iff]
    constructor
    · cases rest with
      | nil =>
        rcases hx with hx | hx
        · have hc : decide (c = '/') = false := hx
          simp [hc]
        · have hh : headIsSlash (([] : List Char) ++ t) = false := hx
          rw [hh, Bool.and_false]
      | cons d ds => exact hl1
    · apply ih t hl2 ht
      cases rest with
      | nil => left; rfl
      | cons d ds =>
        rcases hx with hx | hx
        · left; exact hx
        · right; exact hx

/-- C7 counterexample: a perfectly valid base URL with a trailing slash (the
URL pre-check accepts it) yields a derived SSE endpoint with a double slash
in its path, contradicting the claim for every valid base URL. -/
theorem c7_trailing_slash_counterexample :
    isValidUrl "http://h/" = true ∧ noDoubleSlash (sseUrl "http://h/") = false :=
  ⟨rfl, rfl⟩

/-- C7 (amended): the derived endpoints are exactly `base + "/sse"` and
`base + "/messages/"` (so no separator is ever missing); for a valid base URL
that itself has no post-scheme double slash and does not end with a slash,
the derived URLs have no double slash either — a base with a trailing slash
produces one. -/
theorem c7_url_derivation :
    ∀ base : String,
      sseUrl base = base ++ "/sse" ∧
      postUrl base = base ++ "/messages/" ∧
      (isValidUrl base = true → noDoubleSlash base = true → endsWithSlash base = false →
        noDoubleSlash (sseUrl base) = true ∧ noDoubleSlash (postUrl base) = true) := by
  intro base
  refine ⟨rfl, rfl, ?_⟩
  intro hv hnd hes
  unfold isValidUrl urlParse at hv
  cases hb : breakScheme base.toList with
  | none => rw [hb] at hv; simp at hv
  | some p =>
    cases p with
    | mk sch rest =>
      rw [hb] at hv
      have hv' : (if (!sch.isEmpty && sch.all Char.isAlpha && !rest.isEmpty) = true
          then some (⟨sch, rest⟩ : UrlParts) else none).isSome = true := hv
      have hrest : rest ≠ [] := by
        by_cases hg : (!sch.isEmpty && sch.all Char.isAlpha && !rest.isEmpty) = true
        · simp only [Bool.and_eq_true, Bool.not_eq_true'] at hg
          intro hnil
          rw [hnil] at hg
          simp at hg
        · rw [if_neg hg] at hv'; simp at hv'
      have hDSrest : hasDoubleSlash rest = false := by
        unfold noDoubleSlash dropScheme at hnd
        rw [hb] at hnd
        simpa using hnd
      have hlastBase : lastIsSlash base.toList = false := hes
      have hdecomp := breakScheme_decomp _ _ _ hb
      have hlast : lastIsSlash rest = false := by
        have h1 : lastIsSlash base.toList = lastIsSlash (':' :: '/' :: '/' :: rest) := by
          rw [hdecomp]
          exact lastIsSlash_append sch _ (by simp)
        have h2 : lastIsSlash (':' :: '/' :: '/' :: rest) = lastIsSlash rest := by
          cases rest with
          | nil => exact absurd rfl hrest
          | cons x xs => rfl
        rw [h1, h2] at hlastBase
        exact hlastBase
      constructor
      · unfold noDoubleSlash dropScheme sseUrl
        have hsplit : (base ++ "/sse").toList = base.toList ++ "/sse".toList :=
          String.data_append base "/sse"
        rw [hsplit, breakScheme_append base.toList "/sse".toList sch rest hb]
        show (!hasDoubleSlash (rest ++ "/sse".toList)) = true
        rw [hasDoubleSlash_append_false rest "/sse".toList hDSrest (by decide)
          (Or.inl hlast)]
        rfl
      · unfold noDoubleSlash dropScheme postUrl
        have hsplit : (base ++ "/messages/").toList = base.toList ++ "/messages/".toList :=
          String.data_append base "/messages/"
        rw [hsplit, breakScheme_append base.toList "/messages/".toList sch rest hb]
        show (!hasDoubleSlash (rest ++ "/messages/".toList)) = true
        rw [hasDoubleSlash_append_false rest "/messages/".toList hDSrest (by decide)
          (Or.inl hlast)]
        rfl

/-- C7 witness: the derivation at a concrete valid base URL. -/
theorem c7_url_derivation_witness :
    noDoubleSlash (sseUrl "http://h") = true ∧ noDoubleSlash (postUrl "http://h") = true :=
  (c7_url_derivation "http://h").2.2 rfl rfl rfl

/-! Helper lemmas distinguishing interpolated diagnostics from the warning. -/

theorem data_head_append (a : String) (c : Char) (t : List Char) (x : String)
    (ha : a.data = c :: t) : (a ++ x).data = c :: (t ++ x.data) := by
  rw [String.data_append, ha, List.cons_append]

theorem ne_warnLine_of_head_S (s : String) (t : List Char) (hs : s.data = 'S' :: t) :
    s ≠ warnLine := by
  intro h
  rw [h] at hs
  have hw : warnLine.data =
      'W' :: "ARNING: Server appears unresponsive after multiple heartbeats".data := rfl
  rw [hw] at hs
  injection hs with h1 _
  exact absurd h1 (by decide)

theorem sendingMessage_ne_warnLine (u v : String) :
    ("Sending message to " ++ u ++ "?session_id=" ++ v) ≠ warnLine := by
  apply ne_warnLine_of_head_S _ _
  have d1 := data_head_append "Sending message to " 'S' "ending message to ".data u rfl
  have d2 := data_head_append _ 'S' _ "?session_id=" d1
  exact data_head_append _ 'S' _ v d2

theorem heartbeatLog_ne_warnLine (u v : String) :
    ("Sending heartbeat #" ++ u ++ " after " ++ v ++ "s of silence...") ≠ warnLine := by
  apply ne_warnLine_of_head_S _ _
  have d1 := data_head_append "Sending heartbeat #" 'S' "ending heartbeat #".data u rfl
  have d2 := data_head_append _ 'S' _ " after " d1
  have d3 := data_head_append _ 'S' _ v d2
  exact data_head_append _ 'S' _ "s of silence..." d3

theorem stillTrying_ne_warnLine (u : String) :
    ("Still trying to connect to " ++ u ++ "...") ≠ warnLine := by
  apply ne_warnLine_of_head_S _ _
  have d1 := data_head_append "Still trying to connect to " 'S'
    "till trying to connect to ".data u rfl
  exact data_head_append _ 'S' _ "..." d1

/-- C8 counterexample: one run of six consecutive synthetic pings with no
intervening inbound event emits the elevated warning twice (on the fifth and
the sixth ping), contradicting the claim that it is emitted at most once per
run. -/
theorem c8_repeated_warning_counterexample :
    warningCount (runTicks "http://h" ⟨true, some (Json.str "abc"), 0, 0⟩
      [31000, 62000, 93000, 124000, 155000, 186000]).2 = 2 := rfl

/-- C8 (amended): the elevated warning is emitted on every tick that sends a
synthetic ping once the consecutive-heartbeat count reaches five — that is,
on the fifth consecutive ping and on every later one of the run, not at most
once; the monitor itself never terminates the process. -/
theorem c8_warning_every_fifth_and_later :
    ∀ (base : String) (now : Nat) (st : BridgeState),
      (Eff.err warnLine ∈ (monitorTick base now st).2 ↔
        (st.isConnected = true ∧ jsTruthyOpt st.sessionId = true ∧
         30000 < now - st.lastMessageTime ∧ 5 ≤ st.heartbeatCount + 1)) ∧
      hasExit (monitorTick base now st).2 = false := by
  intro base now st
  unfold monitorTick
  cases hc : st.isConnected with
  | false =>
    simp only [Bool.not_false, if_true, Bool.false_eq_true, false_and, iff_false]
    constructor
    · intro hmem
      simp only [List.mem_singleton, Eff.err.injEq] at hmem
      exact absurd hmem.symm (stillTrying_ne_warnLine (sseUrl base))
    · simp [hasExit]
  | true =>
    simp only [Bool.not_true, Bool.false_eq_true, if_false, true_and]
    cases hs : jsTruthyOpt st.sessionId with
    | false =>
      simp only [Bool.not_false, if_true, Bool.false_eq_true, false_and, iff_false]
      constructor
      · intro hmem
        simp only [List.mem_singleton, Eff.err.injEq] at hmem
        exact absurd hmem.symm (by decide)
      · simp [hasExit]
    | true =>
      simp only [Bool.not_true, Bool.false_eq_true, if_false, true_and]
      by_cases hidle : now - st.lastMessageTime > 30000
      · rw [if_pos hidle]
        have hgate : stdinEnhanced base true st.sessionId
            (heartbeatMessage (st.heartbeatCount + 1)) =
            [Eff.err ("Sending message to " ++ postUrl base ++ "?session_id=" ++
                jsToStringOpt st.sessionId),
             Eff.post (postUrl base ++ "?session_id=" ++ jsToStringOpt st.sessionId)
                (jsTrim (heartbeatMessage (st.heartbeatCount + 1)))] := by
          unfold stdinEnhanced
          rw [hs]
          simp
        by_cases hn : 5 ≤ st.heartbeatCount + 1
        · rw [if_pos hn]
          constructor
          · simp only [hgate]
            constructor
            · intro _; exact ⟨hidle, hn⟩
            · intro _; simp [List.mem_append]
          · simp only [hgate, hasExit, List.any_cons, List.any_append]
            simp
        · rw [if_neg hn]
          constructor
          · simp only [hgate, List.append_nil]
            constructor
            · intro hmem
              simp only [List.mem_cons, List.mem_singleton, Eff.err.injEq,
                List.not_mem_nil, or_false] at hmem
              rcases hmem with h1 | h2
              · exact absurd h1.symm
                  (heartbeatLog_ne_warnLine (toString (st.heartbeatCount + 1))
                    (toString ((now - st.lastMessageTime + 500) / 1000)))
              · rcases h2 with h2 | h2
                · exact absurd h2.symm
                    (sendingMessage_ne_warnLine (postUrl base) (jsToStringOpt st.sessionId))
                · exact absurd h2 (by simp)
            · rintro ⟨-, hn'⟩
              exact absurd hn' hn
          · simp only [hgate, List.append_nil, hasExit, List.any_cons]
            simp
      · rw [if_neg hidle]
        constructor
        · simp only [List.not_mem_nil, false_iff]
          rintro ⟨h1, -⟩
          exact absurd h1 hidle
        · simp [hasExit]

/-! Helper lemmas relating the source-translated `endpoint` listener to the
spec-side ordered strategy chain. -/

theorem hasExit_append (a b : List Eff) : hasExit (a ++ b) = (hasExit a || hasExit b) :=
  List.any_append

theorem startsWithL_of_startsWithL_append (p q : List Char) :
    ∀ l : List Char, startsWithL (p ++ q) l = true → startsWithL p l = true := by
  induction p with
  | nil => intro l _; rfl
  | cons c cs ih =>
    intro l h
    cases l with
    | nil => simp [startsWithL] at h
    | cons d ds =>
      have h' : (decide (c = d) && startsWithL (cs ++ q) ds) = true := h
      rw [Bool.and_eq_true] at h'
      show (decide (c = d) && startsWithL cs ds) = true
      rw [Bool.and_eq_true]
      exact ⟨h'.1, ih ds h'.2⟩

theorem scanSessionId_some_contains :
    ∀ (l : List Char) (v : String), scanSessionId l = some v →
      containsSub "session_id".toList l = true := by
  intro l
  induction l with
  | nil => intro v h; simp [scanSessionId] at h
  | cons c rest ih =>
    intro v h
    show (startsWithL "session_id".toList (c :: rest) ||
      containsSub "session_id".toList rest) = true
    rw [Bool.or_eq_true]
    by_cases hs : startsWithL sessionIdPat (c :: rest) = true
    · left
      have hpat : sessionIdPat = "session_id".toList ++ ['='] := rfl
      exact startsWithL_of_startsWithL_append _ _ _ (hpat ▸ hs)
    · right
      have heq : scanSessionId (c :: rest) = scanSessionId rest := by
        rw [scanSessionId, if_neg hs]
      exact ih v (heq ▸ h)

theorem strat4Scan_fst (raw : String) (cur : Option Json) :
    (strat4Scan raw cur).1 =
      match strat4 raw with
      | some v => some v
      | none => cur := by
  unfold strat4Scan strat4
  by_cases hg : containsSub "session_id".toList raw.toList = true
  · rw [if_pos hg]
    cases hsc : scanSessionId raw.toList with
    | none => simp [hsc]
    | some v => simp [hsc]
  · rw [if_neg hg]
    cases hsc : scanSessionId raw.toList with
    | none => simp [hsc]
    | some v => exact absurd (scanSessionId_some_contains _ _ hsc) hg

theorem strat4Scan_snd_of_fail (raw : String) (cur : Option Json)
    (h : strat4 raw = none) : (strat4Scan raw cur).2 = failLogs := by
  unfold strat4 at h
  have hsc : scanSessionId raw.toList = none := by
    cases hsc : scanSessionId raw.toList with
    | none => rfl
    | some v => rw [hsc] at h; simp at h
  unfold strat4Scan
  by_cases hg : containsSub "session_id".toList raw.toList = true
  · rw [if_pos hg, hsc]
  · rw [if_neg hg]

theorem strat4Scan_noexit (raw : String) (cur : Option Json) :
    hasExit (strat4Scan raw cur).2 = false := by
  unfold strat4Scan
  by_cases hg : containsSub "session_id".toList raw.toList = true
  · rw [if_pos hg]
    cases hsc : scanSessionId raw.toList with
    | none => rfl
    | some v => rfl
  · rw [if_neg hg]
    rfl

theorem strat3Url_fst (raw : String) (cur : Option Json) :
    (strat3Url raw cur).1 =
      match strat3 raw with
      | some v => some v
      | none =>
        match strat4 raw with
        | some v => some v
        | none => stray3 raw cur := by
  unfold strat3Url strat3 stray3
  cases hu : urlParse raw with
  | none => simp [strat4Scan_fst]
  | some u =>
    cases hq : urlSessionId u with
    | none => simp [hq, jsTruthyOpt, strat4Scan_fst]
    | some q =>
      by_cases hq0 : q = ""
      · subst hq0
        simp [hq, jsTruthyOpt, jsTruthy, strat4Scan_fst]
      · simp [hq, jsTruthyOpt, jsTruthy, hq0]

theorem strat3Url_faillog (raw : String) (cur : Option Json)
    (h3 : strat3 raw = none) (h4 : strat4 raw = none) :
    Eff.err "Failed to extract session ID using all strategies" ∈ (strat3Url raw cur).2 := by
  unfold strat3Url
  cases hu : urlParse raw with
  | none =>
    simp only [List.mem_cons]
    right
    rw [strat4Scan_snd_of_fail raw cur h4]
    simp [failLogs]
  | some u =>
    unfold strat3 at h3
    rw [hu] at h3
    replace h3 : (match urlSessionId u with
      | some q => if (q != "") = true then some (Json.str q) else none
      | none => none) = (none : Option Json) := h3
    show Eff.err "Failed to extract session ID using all strategies" ∈
      (let s' : Option Json := (urlSessionId u).map Json.str
       if jsTruthyOpt s' = true
       then (s', [Eff.err ("Extracted session ID from direct URL: " ++ jsToStringOpt s')])
       else strat4Scan raw s').2
    cases hq : urlSessionId u with
    | none =>
      simp only [Option.map_none', jsTruthyOpt, Bool.false_eq_true, if_false]
      rw [strat4Scan_snd_of_fail raw none h4]
      simp [failLogs]
    | some q =>
      rw [hq] at h3
      replace h3 : (if (q != "") = true then some (Json.str q) else none) =
        (none : Option Json) := h3
      have hq0 : q = "" := by
        by_contra hq0
        rw [if_pos (by simp [hq0])] at h3
        simp at h3
      subst hq0
      simp only [Option.map_some', jsTruthyOpt, jsTruthy]
      rw [if_neg (by simp), strat4Scan_snd_of_fail raw _ h4]
      simp [failLogs]

theorem strat3Url_noexit (raw : String) (cur : Option Json) :
    hasExit (strat3Url raw cur).2 = false := by
  unfold strat3Url
  cases hu : urlParse raw with
  | none =>
    have h := strat4Scan_noexit raw cur
    simp only []
    show hasExit (Eff.err "Failed direct URL parsing: Invalid URL" ::
      (strat4Scan raw cur).2) = false
    exact h
  | some u =>
    by_cases ht : jsTruthyOpt ((urlSessionId u).map Json.str) = true
    · simp [ht]
      rfl
    · simp only [Bool.not_eq_true] at ht
      simp [ht, strat4Scan_noexit]

theorem hasExit_nil : hasExit [] = false := rfl

theorem hasExit_cons_err (m : String) (l : List Eff) :
    hasExit (Eff.err m :: l) = hasExit l := rfl

theorem strat2Obj_fst (fields : List (String × Json)) (raw : String) (cur : Option Json) :
    (strat2Obj fields raw cur).1 =
      match strat2Fields fields with
      | some v => some v
      | none =>
        match strat3 raw with
        | some v => some v
        | none =>
          match strat4 raw with
          | some v => some v
          | none => stray3 raw (stray2 fields cur) := by
  unfold strat2Obj strat2Fields stray2
  cases hj : jsOrFields fields with
  | none => simp [hj, strat3Url_fst]
  | some v =>
    cases hu : urlParse (jsToString v) with
    | none => simp [hj, hu, strat3Url_fst]
    | some u =>
      cases hq : urlSessionId u with
      | none => simp [hj, hu, hq, jsTruthyOpt, strat3Url_fst]
      | some q =>
        by_cases hq0 : q = ""
        · subst hq0
          simp [hj, hu, hq, jsTruthyOpt, jsTruthy, strat3Url_fst]
        · simp [hj, hu, hq, jsTruthyOpt, jsTruthy, hq0]

theorem strat2Obj_faillog (fields : List (String × Json)) (raw : String) (cur : Option Json)
    (h2 : strat2Fields fields = none) (h3 : strat3 raw = none) (h4 : strat4 raw = none) :
    Eff.err "Failed to extract session ID using all strategies" ∈ (strat2Obj fields raw cur).2 := by
  unfold strat2Obj
  cases hj : jsOrFields fields with
  | none => exact strat3Url_faillog raw cur h3 h4
  | some v =>
    unfold strat2Fields at h2
    rw [hj] at h2
    replace h2 : (match urlParse (jsToString v) with
      | some u =>
        match urlSessionId u with
        | some q => if (q != "") = true then some (Json.str q) else none
        | none => none
      | none => none) = (none : Option Json) := h2
    cases hu : urlParse (jsToString v) with
    | none =>
      simp only [hu]
      refine List.mem_append_right _ ?_
      exact List.mem_cons_of_mem _ (strat3Url_faillog raw cur h3 h4)
    | some u =>
      rw [hu] at h2
      replace h2 : (match urlSessionId u with
        | some q => if (q != "") = true then some (Json.str q) else none
        | none => none) = (none : Option Json) := h2
      simp only [hu]
      cases hq : urlSessionId u with
      | none =>
        simp only [hq, Option.map_none', jsTruthyOpt, Bool.false_eq_true, if_false]
        exact List.mem_append_right _ (strat3Url_faillog raw none h3 h4)
      | some q =>
        rw [hq] at h2
        replace h2 : (if (q != "") = true then some (Json.str q) else none) =
          (none : Option Json) := h2
        have hq0 : q = "" := by
          by_contra hq0
          rw [if_pos (by simp [hq0])] at h2
          simp at h2
        subst hq0
        simp only [hq, Option.map_some', jsTruthyOpt, jsTruthy]
        rw [if_neg (by simp)]
        exact List.mem_append_right _ (strat3Url_faillog raw _ h3 h4)

theorem strat2Obj_noexit (fields : List (String × Json)) (raw : String) (cur : Option Json) :
    hasExit (strat2Obj fields raw cur).2 = false := by
  unfold strat2Obj
  cases hj : jsOrFields fields with
  | none => exact strat3Url_noexit raw cur
  | some v =>
    cases hu : urlParse (jsToString v) with
    | none =>
      simp only [hu]
      rw [hasExit_append, hasExit_cons_err, hasExit_cons_err, hasExit_nil]
      simp [strat3Url_noexit]
    | some u =>
      simp only [hu]
      by_cases ht : jsTruthyOpt ((urlSessionId u).map Json.str) = true
      · simp [ht]
        rfl
      · simp only [Bool.not_eq_true] at ht
        simp [ht, hasExit_append, hasExit_cons_err, hasExit_nil, strat3Url_noexit]

theorem endpointObjBranch_fst (fields : List (String × Json)) (raw : String)
    (cur : Option Json) :
    (endpointObjBranch fields raw cur).1 =
      match strat1Fields fields with
      | some v => some v
      | none =>
        match strat2Fields fields with
        | some v => some v
        | none =>
          match strat3 raw with
          | some v => some v
          | none =>
            match strat4 raw with
            | some v => some v
            | none => stray3 raw (stray2 fields cur) := by
  unfold endpointObjBranch strat1Fields
  cases ho : objGet fields "session_id" with
  | none => simp [strat2Obj_fst]
  | some v =>
    cases hv : jsTruthy v with
    | true => simp [hv]
    | false => simp [hv, strat2Obj_fst]

theorem endpointObjBranch_faillog (fields : List (String × Json)) (raw : String)
    (cur : Option Json) (h1 : strat1Fields fields = none)
    (h2 : strat2Fields fields = none) (h3 : strat3 raw = none) (h4 : strat4 raw = none) :
    Eff.err "Failed to extract session ID using all strategies" ∈
      (endpointObjBranch fields raw cur).2 := by
  unfold endpointObjBranch
  cases ho : objGet fields "session_id" with
  | none => exact strat2Obj_faillog fields raw cur h2 h3 h4
  | some v =>
    have hv : jsTruthy v = false := by
      unfold strat1Fields at h1
      rw [ho] at h1
      replace h1 : (if jsTruthy v = true then some v else none) = (none : Option Json) := h1
      cases hv : jsTruthy v with
      | false => rfl
      | true => rw [if_pos hv] at h1; simp at h1
    simp only [hv, Bool.false_eq_true, if_false]
    exact strat2Obj_faillog fields raw cur h2 h3 h4

theorem endpointObjBranch_noexit (fields : List (String × Json)) (raw : String)
    (cur : Option Json) : hasExit (endpointObjBranch fields raw cur).2 = false := by
  unfold endpointObjBranch
  cases ho : objGet fields "session_id" with
  | none => exact strat2Obj_noexit fields raw cur
  | some v =>
    cases hv : jsTruthy v with
    | true => simp [hv]; rfl
    | false => simp [hv, strat2Obj_noexit]

theorem endpointEnhanced_fst (cur : Option Json) (p : String) :
    (endpointEnhanced cur p).1 =
      match resolveSpec p with
      | some v => some v
      | none => strayAll p cur := by
  unfold endpointEnhanced resolveSpec strat1 strat2 strayAll
  cases hj : jsonParse p with
  | none =>
    simp [strat3Url_fst]
    cases h3 : strat3 p <;> cases h4 : strat4 p <;> simp [h3, h4]
  | some j =>
    cases j with
    | obj fields =>
      simp [endpointObjBranch_fst]
      cases h1 : strat1Fields fields <;> cases h2 : strat2Fields fields <;>
        cases h3 : strat3 p <;> cases h4 : strat4 p <;> simp [h1, h2, h3, h4]
    | arr xs =>
      simp [endpointObjBranch_fst, strat1Fields, strat2Fields, jsOrFields, objGet,
        jsTruthyOpt, stray2]
      cases h3 : strat3 p <;> cases h4 : strat4 p <;> simp [h3, h4]
    | null =>
      simp [strat3Url_fst]
      cases h3 : strat3 p <;> cases h4 : strat4 p <;> simp [h3, h4]
    | bool b =>
      simp [strat3Url_fst]
      cases h3 : strat3 p <;> cases h4 : strat4 p <;> simp [h3, h4]
    | num n =>
      simp [strat3Url_fst]
      cases h3 : strat3 p <;> cases h4 : strat4 p <;> simp [h3, h4]
    | str s =>
      simp [strat3Url_fst]
      cases h3 : strat3 p <;> cases h4 : strat4 p <;> simp [h3, h4]

theorem resolveSpec_none_parts (p : String) (h : resolveSpec p = none) :
    strat1 p = none ∧ strat2 p = none ∧ strat3 p = none ∧ strat4 p = none := by
  have h1 : strat1 p = none := by
    cases hx : strat1 p with
    | none => rfl
    | some v => simp [resolveSpec, hx] at h
  have h2 : strat2 p = none := by
    cases hx : strat2 p with
    | none => rfl
    | some v => simp [resolveSpec, h1, hx] at h
  have h3 : strat3 p = none := by
    cases hx : strat3 p with
    | none => rfl
    | some v => simp [resolveSpec, h1, h2, hx] at h
  have h4 : strat4 p = none := by
    simpa [resolveSpec, h1, h2, h3] using h
  exact ⟨h1, h2, h3, h4⟩

theorem stray3_falsy (raw : String) (cur : Option Json) (hcur : jsTruthyOpt cur = false)
    (h3 : strat3 raw = none) : jsTruthyOpt (stray3 raw cur) = false := by
  unfold stray3
  cases hu : urlParse raw with
  | none => exact hcur
  | some u =>
    unfold strat3 at h3
    rw [hu] at h3
    replace h3 : (match urlSessionId u with
      | some q => if (q != "") = true then some (Json.str q) else none
      | none => none) = (none : Option Json) := h3
    cases hq : urlSessionId u with
    | none => simp [hq, jsTruthyOpt]
    | some q =>
      rw [hq] at h3
      replace h3 : (if (q != "") = true then some (Json.str q) else none) =
        (none : Option Json) := h3
      have hq0 : q = "" := by
        by_contra hq0
        rw [if_pos (by simp [hq0])] at h3
        simp at h3
      subst hq0
      simp [hq, jsTruthyOpt, jsTruthy]

theorem stray2_falsy (fields : List (String × Json)) (cur : Option Json)
    (hcur : jsTruthyOpt cur = false) (h2 : strat2Fields fields = none) :
    jsTruthyOpt (stray2 fields cur) = false := by
  unfold stray2
  cases hj : jsOrFields fields with
  | none => exact hcur
  | some v =>
    unfold strat2Fields at h2
    rw [hj] at h2
    replace h2 : (match urlParse (jsToString v) with
      | some u =>
        match urlSessionId u with
        | some q => if (q != "") = true then some (Json.str q) else none
        | none => none
      | none => none) = (none : Option Json) := h2
    cases hu : urlParse (jsToString v) with
    | none => simpa [hu] using hcur
    | some u =>
      rw [hu] at h2
      replace h2 : (match urlSessionId u with
        | some q => if (q != "") = true then some (Json.str q) else none
        | none => none) = (none : Option Json) := h2
      cases hq : urlSessionId u with
      | none => simp [hj, hu, hq, jsTruthyOpt]
      | some q =>
        rw [hq] at h2
        replace h2 : (if (q != "") = true then some (Json.str q) else none) =
          (none : Option Json) := h2
        have hq0 : q = "" := by
          by_contra hq0
          rw [if_pos (by simp [hq0])] at h2
          simp at h2
        subst hq0
        simp [hj, hu, hq, jsTruthyOpt, jsTruthy]

theorem strayAll_falsy (p : String) (cur : Option Json) (hcur : jsTruthyOpt cur = false)
    (hres : resolveSpec p = none) : jsTruthyOpt (strayAll p cur) = false := by
  obtain ⟨h1, h2, h3, h4⟩ := resolveSpec_none_parts p hres
  unfold strayAll
  cases hj : jsonParse p with
  | none => exact stray3_falsy p cur hcur h3
  | some j =>
    cases j with
    | obj fields =>
      have h2f : strat2Fields fields = none := by
        unfold strat2 at h2
        rw [hj] at h2
        exact h2
      exact stray3_falsy p _ (stray2_falsy fields cur hcur h2f) h3
    | arr xs => exact stray3_falsy p _ (stray2_falsy [] cur hcur rfl) h3
    | null => exact stray3_falsy p cur hcur h3
    | bool b => exact stray3_falsy p cur hcur h3
    | num n => exact stray3_falsy p cur hcur h3
    | str s => exact stray3_falsy p cur hcur h3

theorem endpointEnhanced_faillog (cur : Option Json) (p : String)
    (hres : resolveSpec p = none) :
    Eff.err "Failed to extract session ID using all strategies" ∈
      (endpointEnhanced cur p).2 := by
  obtain ⟨h1, h2, h3, h4⟩ := resolveSpec_none_parts p hres
  unfold endpointEnhanced
  cases hj : jsonParse p with
  | none =>
    exact List.mem_append_right _ (strat3Url_faillog p cur h3 h4)
  | some j =>
    cases j with
    | obj fields =>
      have h1f : strat1Fields fields = none := by
        unfold strat1 at h1
        rw [hj] at h1
        exact h1
      have h2f : strat2Fields fields = none := by
        unfold strat2 at h2
        rw [hj] at h2
        exact h2
      exact List.mem_append_right _ (endpointObjBranch_faillog fields p cur h1f h2f h3 h4)
    | arr xs =>
      exact List.mem_append_right _ (endpointObjBranch_faillog [] p cur rfl rfl h3 h4)
    | null => exact List.mem_append_right _ (strat3Url_faillog p cur h3 h4)
    | bool b => exact List.mem_append_right _ (strat3Url_faillog p cur h3 h4)
    | num n => exact List.mem_append_right _ (strat3Url_faillog p cur h3 h4)
    | str s => exact List.mem_append_right _ (strat3Url_faillog p cur h3 h4)

theorem endpointEnhanced_noexit (cur : Option Json) (p : String) :
    hasExit (endpointEnhanced cur p).2 = false := by
  unfold endpointEnhanced
  cases hj : jsonParse p with
  | none =>
    simp [hasExit_append, hasExit_cons_err, hasExit_nil, strat3Url_noexit]
  | some j =>
    cases j <;>
      simp [hasExit_append, hasExit_cons_err, hasExit_nil, strat3Url_noexit,
        endpointObjBranch_noexit]

/-- C1: on the first `endpoint` event (session slot still null) the enhanced
listener resolves exactly as the spec's ordered strategy chain: whenever some
strategy yields a non-empty value, the handler ends with the first such value;
when none does, the handler ends with no usable (truthy) identifier.  In
particular `{"session_id":"abc123"}` resolves to `abc123` (strategy 1) and
`http://host/messages/?session_id=xyz` resolves to `xyz` (strategy 3). -/
theorem c1_ordered_strategy_resolution :
    (∀ (p : String) (v : Json), resolveSpec p = some v →
      (endpointEnhanced none p).1 = some v) ∧
    (∀ p : String, resolveSpec p = none →
      jsTruthyOpt (endpointEnhanced none p).1 = false) ∧
    (endpointEnhanced none "\x7b\"session_id\":\"abc123\"\x7d").1 = some (Json.str "abc123") ∧
    (endpointEnhanced none "http://host/messages/?session_id=xyz").1 = some (Json.str "xyz") := by
  refine ⟨?_, ?_, rfl, rfl⟩
  · intro p v h
    rw [endpointEnhanced_fst, h]
  · intro p h
    rw [endpointEnhanced_fst, h]
    exact strayAll_falsy p none rfl h

/-- C1 witness: the resolver agreement applied at the concrete URL payload. -/
theorem c1_ordered_strategy_resolution_witness :
    (endpointEnhanced none "http://host/messages/?session_id=xyz").1 = some (Json.str "xyz") :=
  c1_ordered_strategy_resolution.1 "http://host/messages/?session_id=xyz"
    (Json.str "xyz") rfl

/-- C3 counterexample: a first `endpoint` event sets the identifier to
`abc123`; a second `endpoint` event whose payload is a URL without a
`session_id` parameter then clears the already-set identifier back to null
(the source assigns `url.searchParams.get(...)` before checking it), so a
later event does not leave the identifier unchanged. -/
theorem c3_second_event_clears_counterexample :
    (endpointEnhanced none "\x7b\"session_id\":\"abc123\"\x7d").1 = some (Json.str "abc123") ∧
    (endpointEnhanced (some (Json.str "abc123")) "http://host/messages/").1 = none :=
  ⟨rfl, rfl⟩

/-- C3 (amended): the identifier is not write-once — every `endpoint` event
re-runs the resolver regardless of the current value: an event on which some
strategy yields a non-empty value overwrites the identifier with that value,
and an event on which all strategies fail leaves the slot at the leftover of
the strategies' pre-check assignments (which clears it when a URL parse
succeeded without a usable `session_id`, and keeps it only when no assignment
executed). -/
theorem c3_resolver_reruns_on_every_event :
    ∀ (cur : Option Json) (p : String),
      (endpointEnhanced cur p).1 =
        match resolveSpec p with
        | some v => some v
        | none => strayAll p cur :=
  fun cur p => endpointEnhanced_fst cur p

/-- C4 counterexample: in the simple variant, the payload
`not a url at all` makes the URL parse throw and the handler exits the
process with code 1, contradicting "the process keeps running". -/
theorem c4_simple_variant_exits_counterexample :
    endpointSimple none "not a url at all" =
      (none, [Eff.err "Failed to extract session ID: Invalid URL", Eff.exit 1]) ∧
    hasExit (endpointSimple none "not a url at all").2 = true :=
  ⟨rfl, rfl⟩

/-- C4 (amended): in the enhanced variant the claim holds as stated — when
all four strategies fail, the failure is logged, the identifier stays
unusable (falsy), no process exit occurs, and the outbound gate still
dispatches no POST; the example payload `not a url at all` is such a failure.
In the simple variant the same payload exits the process with code 1. -/
theorem c4_failed_handshake_nonfatal :
    (∀ p : String, resolveSpec p = none →
      jsTruthyOpt (endpointEnhanced none p).1 = false ∧
      Eff.err "Failed to extract session ID using all strategies" ∈
        (endpointEnhanced none p).2 ∧
      hasExit (endpointEnhanced none p).2 = false ∧
      (∀ (base : String) (conn : Bool) (line : String),
        postEffs (stdinEnhanced base conn (endpointEnhanced none p).1 line) = [])) ∧
    resolveSpec "not a url at all" = none := by
  refine ⟨?_, rfl⟩
  intro p h
  have hfal : jsTruthyOpt (endpointEnhanced none p).1 = false := by
    rw [endpointEnhanced_fst, h]
    exact strayAll_falsy p none rfl h
  refine ⟨hfal, endpointEnhanced_faillog none p h, endpointEnhanced_noexit none p, ?_⟩
  intro base conn line
  cases conn with
  | false => simp [stdinEnhanced, postEffs]
  | true => simp [stdinEnhanced, hfal, postEffs]

/-- C4 witness: the non-fatal failure at the concrete malformed payload. -/
theorem c4_failed_handshake_nonfatal_witness :
    hasExit (endpointEnhanced none "not a url at all").2 = false ∧
    jsTruthyOpt (endpointEnhanced none "not a url at all").1 = false :=
  ⟨(c4_failed_handshake_nonfatal.1 "not a url at all"
      c4_failed_handshake_nonfatal.2).2.2.1,
   (c4_failed_handshake_nonfatal.1 "not a url at all"
      c4_failed_handshake_nonfatal.2).1⟩

/-- C2 counterexample: in the simple variant, a line arriving while the
session identifier is unset is dropped with no diagnostic report at all (and
there is no connectivity check), contradicting the claim that every such drop
is reported on the diagnostic error channel. -/
theorem c2_silent_drop_counterexample :
    stdinSimple "http://h" none "hello" = [] := rfl

/-- C2 (amended): in the enhanced variant the claim holds as stated — no POST
is dispatched while connectivity is false or the session identifier is unset,
the line is dropped with a diagnostic, connectivity is checked first (reason
"no connection") and the session identifier second (reason "awaiting
session").  In the simple variant the drop is silent and only the session
check exists. -/
theorem c2_gate_drop_and_report :
    ∀ (base : String) (conn : Bool) (sid : Option Json) (line : String),
      (conn = false →
        stdinEnhanced base conn sid line =
          [Eff.err "Cannot send message: No connection to server"]) ∧
      (conn = true → jsTruthyOpt sid = false →
        stdinEnhanced base conn sid line =
          [Eff.err "Cannot send message: Waiting for session ID (still initializing)"]) ∧
      (postEffs (stdinEnhanced base conn sid line) ≠ [] →
        conn = true ∧ jsTruthyOpt sid = true) := by
  intro base conn sid line
  refine ⟨?_, ?_, ?_⟩
  · intro h; simp [stdinEnhanced, h]
  · intro h1 h2; simp [stdinEnhanced, h1, h2]
  · intro h
    cases conn with
    | false => simp [stdinEnhanced, postEffs] at h
    | true =>
      refine ⟨rfl, ?_⟩
      cases hs : jsTruthyOpt sid with
      | false => simp [stdinEnhanced, hs, postEffs] at h
      | true => rfl

/-- C2 witness: the two drop reports at concrete inputs. -/
theorem c2_gate_drop_and_report_witness :
    stdinEnhanced "http://h" false none "x" =
      [Eff.err "Cannot send message: No connection to server"] ∧
    stdinEnhanced "http://h" true none "x" =
      [Eff.err "Cannot send message: Waiting for session ID (still initializing)"] :=
  ⟨(c2_gate_drop_and_report "http://h" false none "x").1 rfl,
   (c2_gate_drop_and_report "http://h" true none "x").2.1 rfl rfl⟩

/-- C5 counterexample: in the simple variant a successful POST response is
never forwarded (no stdout write at all), and a 404 yields only the generic
stderr log with no classification and no mirrored error object, contradicting
the claim for every dispatched POST. -/
theorem c5_simple_response_counterexample :
    responseSimple 200 "OK" = [] ∧
    responseSimple 404 "Not Found" = [Eff.err "HTTP error: 404 Not Found"] :=
  ⟨rfl, rfl⟩

/-- C5 (amended): in the enhanced variant the claim holds as stated — a
non-ok status is classified (404 endpoint-missing, 401/403 authentication,
otherwise generic with the code), reported on stderr and mirrored as an
`http_error` object on stdout, with no process exit; an ok status has its
body written to stdout as one line, through the same `Eff.out` write-+-flush
as the Inbound Forwarder.  The simple variant does neither. -/
theorem c5_response_classification :
    ∀ (status : Nat) (statusText bodyText : String),
      (respOk status = false →
        responseEnhanced status statusText (BodyRead.ok bodyText) =
          [Eff.err ("HTTP error: " ++ toString status ++ " " ++ statusText),
           Eff.err (classifyHttp status statusText),
           Eff.out (httpErrorJson status statusText)]) ∧
      (respOk status = true →
        outLines (responseEnhanced status statusText (BodyRead.ok bodyText)) = [bodyText]) ∧
      hasExit (responseEnhanced status statusText (BodyRead.ok bodyText)) = false ∧
      classifyHttp 404 statusText =
        "Endpoint not found. Make sure server has a /messages/ endpoint" ∧
      classifyHttp 401 statusText =
        "Authentication error. Session ID might be invalid" ∧
      classifyHttp 403 statusText =
        "Authentication error. Session ID might be invalid" ∧
      (status ≠ 404 → status ≠ 401 → status ≠ 403 →
        classifyHttp status statusText =
          "HTTP error: " ++ toString status ++ " " ++ statusText) := by
  intro status statusText bodyText
  refine ⟨?_, ?_, ?_, ?_, ?_, ?_, ?_⟩
  · intro h; simp [responseEnhanced, h]
  · intro h; simp [responseEnhanced, h, outLines]
  · cases h : respOk status <;> simp [responseEnhanced, h, hasExit]
  · simp [classifyHttp]
  · simp [classifyHttp]
  · simp [classifyHttp]
  · intro h1 h2 h3; simp [classifyHttp, h1, h2, h3]

/-- C5 witness: a forwarded success body and a classified 404 at concrete
inputs. -/
theorem c5_response_classification_witness :
    outLines (responseEnhanced 200 "OK" (BodyRead.ok "pong")) = ["pong"] ∧
    responseEnhanced 404 "Not Found" (BodyRead.ok "x") =
      [Eff.err ("HTTP error: " ++ toString 404 ++ " " ++ "Not Found"),
       Eff.err (classifyHttp 404 "Not Found"),
       Eff.out (httpErrorJson 404 "Not Found")] :=
  ⟨(c5_response_classification 200 "OK" "pong").2.1 (by decide),
   (c5_response_classification 404 "Not Found" "x").1 (by decide)⟩

/-- C6 counterexample: a named event outside the fixed five-name list (and
other than `message`/`endpoint`) has no listener and produces no output line
at all, contradicting the claim that every named event is forwarded wrapped. -/
theorem c6_unlisted_event_counterexample :
    dispatchEnhanced "custom" "x" = [] := rfl

/-- C6 (amended): only the five fixed names ready/update/notification/error/
ping are forwarded in wrapped `{event, data}` form; any other named event
(besides the default `message` and the handshake `endpoint`) has no listener
and produces nothing. -/
theorem c6_named_event_forwarding :
    ∀ (name payload : String),
      (name ∈ namedEvents →
        dispatchEnhanced name payload =
          [Eff.err (name ++ " event received"), Eff.out (wrapEvent name payload)]) ∧
      (name ∉ namedEvents → name ≠ "message" → dispatchEnhanced name payload = []) := by
  intro name payload
  constructor
  · intro h
    have hne : name ≠ "message" := by
      rintro rfl
      exact absurd h (by decide)
    simp [dispatchEnhanced, hne, h]
  · intro h hm
    simp [dispatchEnhanced, hm, h]

/-- C6 witness: a listed name is wrapped, an unlisted one is dropped. -/
theorem c6_named_event_forwarding_witness :
    dispatchEnhanced "ready" "p1" =
      [Eff.err "ready event received", Eff.out (wrapEvent "ready" "p1")] ∧
    dispatchEnhanced "custom2" "p2" = [] :=
  ⟨(c6_named_event_forwarding "ready" "p1").1 (by decide),
   (c6_named_event_forwarding "custom2" "p2").2 (by decide) (by decide)⟩

/-- C9 counterexample: in the enhanced variant a single default `message`
event produces two output lines, not one — both the `onmessage` property and
the second `addEventListener("message")` handler fire and each writes the
payload. -/
theorem c9_double_write_counterexample :
    outLines (dispatchEnhanced "message" "hello") = ["hello", "hello"] ∧
    (outLines (dispatchEnhanced "message" "hello")).length ≠ 1 :=
  ⟨rfl, by decide⟩

/-- C9 (amended): each default `message` event produces exactly two identical
payload lines in the enhanced variant (its two registered handlers), and
exactly one verbatim line in the simple variant. -/
theorem c9_message_write_count :
    ∀ payload : String,
      outLines (dispatchEnhanced "message" payload) = [payload, payload] ∧
      outLines (onMessageSimple payload) = [payload] := by
  intro payload
  constructor
  · simp [dispatchEnhanced, outLines]
  · simp [onMessageSimple, outLines]

/-- C10: a POST whose 10-second timer fires writes two timeout error objects
to the protocol output: one from the timer callback when it aborts the
controller, and a second from the catch branch when the aborted fetch rejects
with `AbortError`. -/
theorem c10_double_timeout_emission :
    outLines (postAttempt true (FetchOutcome.abortErr "The user aborted a request.")) =
      [errObjJson "timeout" "Request timed out after 10 seconds",
       errObjJson "timeout" "Request timed out after 10 seconds"] ∧
    errObjJson "timeout" "Request timed out after 10 seconds" =
      "\x7b\"error\":\"timeout\",\"message\":\"Request timed out after 10 seconds\"\x7d" :=
  ⟨rfl, rfl⟩

end Bridge
